import Mathlib

/-!
# Verification of the Pokémon-Connections board-generation and guess-validation engine

Shallow embedding of `script.js` (primary implementation, Gen-1 pool) and of the
pool-size check of the second implementation (generation-endpoint pool, called
`startGameGen` below).  Remote PokéAPI lookups are modelled by an oracle
`api : String → Option PokeMeta`: `none` stands for a per-item failure
(`NotFound` / `TransientFetchError`), which `fetchPokemonData` absorbs exactly as
the source's `catch` branch does.  `Math.random()` draws are modelled by an
oracle `r : Nat → Nat → Nat`: `r c` is the draw stream of the `c`-th
randomness-consuming call site, and each draw is reduced into range with `%`
(the source's `Math.floor(Math.random()*(i+1))` always lies in `[0,i]`; every
value of the oracle corresponds to a possible run).
-/

/-- Normalized metadata record returned by `fetchPokemonData` in the source:
`types` (type names, primary first, the source's `data.types[k].type.name`),
`is_legendary`, `generation` (a *string* such as `"generation-i"`, see
`species.generation.name` in the source), `evolution_chain` (URL string). -/
structure PokeMeta where
  types : List String
  is_legendary : Bool
  generation : Option String
  evolution_chain : Option String
deriving DecidableEq, Repr

instance : Inhabited PokeMeta :=
  ⟨{ types := [], is_legendary := false, generation := none, evolution_chain := none }⟩

/-- `fetchPokemonData` (script.js:306-327): on any fetch failure the `catch`
branch returns `{ name, types: [], is_legendary: false }`, i.e. an
attribute-less record; the failure never propagates. -/
def fetchPokemonData (api : String → Option PokeMeta) (name : String) : PokeMeta :=
  match api name with
  | some m => m
  | none => { types := [], is_legendary := false, generation := none, evolution_chain := none }

/-- `meta.types && meta.types.length ? meta.types[0].type.name : null` -/
def primaryType (m : PokeMeta) : Option String :=
  m.types.head?

/-- Swap of two list positions, as the destructuring assignment
`[a[i],a[j]]=[a[j],a[i]]` inside `shuffle`. -/
def swapL (a : List α) (i j : Nat) : List α :=
  match a[i]?, a[j]? with
  | some x, some y => (a.set i y).set j x
  | _, _ => a

/-- The loop of `shuffle` (script.js:292): `for(let i=a.length-1;i>0;i--)`
swap `a[i]` with `a[j]`, `j = Math.floor(Math.random()*(i+1))`.  `k` counts the
draws consumed from the stream `ri`. -/
def fisherYates (ri : Nat → Nat) (k : Nat) (a : List α) : Nat → List α
  | 0 => a
  | i + 1 => fisherYates ri (k + 1) (swapL a (i + 1) (ri k % (i + 2))) i

/-- `shuffle(a)` (script.js:292). -/
def shuffle (ri : Nat → Nat) (a : List α) : List α :=
  fisherYates ri 0 a (a.length - 1)

/-- `sampleArray(arr, n)` (script.js:287-291). -/
def sampleArray (ri : Nat → Nat) (arr : List String) (n : Nat) : List String :=
  (shuffle ri arr).take n

/-- `removeFromPool(pool, items)` (script.js:294-299): for each item, remove its
first occurrence from the pool (`indexOf` + `splice`; absent items are a no-op,
which is exactly `List.erase`). -/
def removeFromPool (pool items : List String) : List String :=
  items.foldl (fun p it => p.erase it) pool

/-- JS `Array.prototype.findIndex`: index of the first match, `-1` if none. -/
def jsFindIndex (p : α → Bool) (l : List α) : Int :=
  match l.findIdx? p with
  | some i => (i : Int)
  | none => -1

/-- `n.toLowerCase()`.  (Same function as `String.toLower`, written so that it
evaluates by kernel reduction.) -/
def jsToLowerCase (s : String) : String :=
  ⟨s.data.map Char.toLower⟩

/-- Insertion-ordered bucket maps (`typeMembers`, `chainMap` object literals):
lookup of a key's bucket, `[]` when absent. -/
def bucketGet (bs : List (String × List String)) (k : String) : List String :=
  match bs.find? (fun b => b.1 == k) with
  | some b => b.2
  | none => []

/-- Store a bucket under a key, keeping object-key insertion order. -/
def bucketSet (bs : List (String × List String)) (k : String) (v : List String) :
    List (String × List String) :=
  if bs.any (fun b => b.1 == k) then
    bs.map (fun b => if b.1 == k then (k, v) else b)
  else bs ++ [(k, v)]

/-- The scanning loop of `buildTypeGroup` (script.js:329-348): fetch each sampled
name, skip it when it has no primary type, push it into its primary type's
bucket, and return the first bucket that reaches `size`. -/
def buildTypeGroupLoop (api : String → Option PokeMeta) (size : Nat) :
    List String → List (String × List String) → Option (List String)
  | [], _ => none
  | name :: rest, buckets =>
    match primaryType (fetchPokemonData api name) with
    | none => buildTypeGroupLoop api size rest buckets
    | some pt =>
      let members := bucketGet buckets pt ++ [name]
      if size ≤ members.length then some (members.take size)
      else buildTypeGroupLoop api size rest (bucketSet buckets pt members)

/-- `buildTypeGroup(pool, size)` (script.js:329-348): shuffles a copy of the
pool, then runs the greedy streaming bucket scan. -/
def buildTypeGroup (api : String → Option PokeMeta) (ri : Nat → Nat)
    (pool : List String) (size : Nat) : Option (List String) :=
  buildTypeGroupLoop api size (shuffle ri pool) []

/-- The scanning loop of `buildEvolutionGroup` (script.js:350-372): bucket pool
items by evolution-chain URL (items without a chain are skipped), returning
early when a bucket reaches `minSize`; otherwise returns the final chain map. -/
def buildEvolutionGroupLoop (api : String → Option PokeMeta) (minSize : Nat) :
    List String → List (String × List String) →
      Option (List String) × List (String × List String)
  | [], chainMap => (none, chainMap)
  | name :: rest, chainMap =>
    match (fetchPokemonData api name).evolution_chain with
    | none => buildEvolutionGroupLoop api minSize rest chainMap
    | some chainUrl =>
      let members := bucketGet chainMap chainUrl ++ [name]
      if minSize ≤ members.length then (some (members.take minSize), chainMap)
      else buildEvolutionGroupLoop api minSize rest (bucketSet chainMap chainUrl members)

/-- `let best = []; for (const k of Object.keys(chainMap)) if (chainMap[k].length
> best.length) best = chainMap[k];` — first strictly-largest bucket wins. -/
def bestBucket (bs : List (String × List String)) : List String :=
  bs.foldl (fun best b => if best.length < b.2.length then b.2 else best) []

/-- `buildEvolutionGroup(pool, minSize)` (script.js:350-372).  Iterates the pool
in order (no shuffle in the source); if no chain reaches `minSize`, the largest
chain found is returned, `null` when the map is empty. -/
def buildEvolutionGroup (api : String → Option PokeMeta) (pool : List String)
    (minSize : Nat) : Option (List String) :=
  match buildEvolutionGroupLoop api minSize pool [] with
  | (some g, _) => some g
  | (none, chainMap) =>
    let best := bestBucket chainMap
    if best.isEmpty then none else some best

/-- The `while (matches.length < count) { const pick = pool.pop(); if
(!matches.includes(pick)) matches.push(pick) }` pad loops (script.js:385-388 and
the legendary fill at script.js:91-94).  The first argument is the pool
*reversed* (`pop` takes from the tail); returns the grown list and the unpopped
remainder.  (When the pool runs out the source never terminates — script.js —
or exits early — the Gen-1..7 variant, whose loop also tests `pool.length`; the
equation for `[]` models the latter, and every property proved below keeps the
pool large enough for the two to agree.) -/
def padLoop (count : Nat) : List String → List String → List String × List String
  | [], ms => (ms, [])
  | p :: rest, ms =>
    if count ≤ ms.length then (ms, p :: rest)
    else padLoop count rest (if ms.contains p then ms else ms ++ [p])

/-- Pad `ms` up to `count` elements by popping from the tail of `pool`,
skipping picks already present; returns the padded list and the leftover pool. -/
def popPad (count : Nat) (pool ms : List String) : List String × List String :=
  let (m, rp) := padLoop count pool.reverse ms
  (m, rp.reverse)

/-- The type-match scan of `findSameTypeFiller` (script.js:378-384): collect pool
items whose primary type equals `targetType`, stopping once `count` are found. -/
def fillerScan (api : String → Option PokeMeta) (targetType : String) (count : Nat) :
    List String → List String → List String
  | [], ms => ms
  | name :: rest, ms =>
    let t := primaryType (fetchPokemonData api name)
    let ms := if t = some targetType then ms ++ [name] else ms
    if count ≤ ms.length then ms
    else fillerScan api targetType count rest ms

/-- `findSameTypeFiller(pool, referenceName, count)` (script.js:374-390).
Returns the filler and the pool as left by the function's `pop`s (the scan
itself does not remove anything from the pool — in particular the pool still
contains the evolution-group members the caller is about to concatenate with
the result). -/
def findSameTypeFiller (api : String → Option PokeMeta) (ri : Nat → Nat)
    (pool : List String) (referenceName : String) (count : Nat) :
    List String × List String :=
  match primaryType (fetchPokemonData api referenceName) with
  | none => (sampleArray ri pool count, pool)
  | some targetType =>
    let ms := fillerScan api targetType count pool []
    popPad count pool ms

/-- `const legendaryNames = ["articuno","zapdos","moltres","mewtwo","mew"]`
(script.js:87). -/
def legendaryNames : List String :=
  ["articuno", "zapdos", "moltres", "mewtwo", "mew"]

/-- `candidateLegends` of the Gen-1..7 implementation (its line 99). -/
def candidateLegends : List String :=
  ["articuno", "zapdos", "moltres", "mewtwo", "mew", "lugia", "ho-oh", "suicune",
   "entei", "raikou", "regirock", "regice", "registeel", "latias", "latios",
   "hoopa", "zacian", "zamazenta"]

/-- One board entry of `cardData` (script.js:116-125): name, fetched metadata,
the back-reference `groupId := solutions.findIndex(g => g.includes(name))`, and
the lock flag (initially `false`).  The presentation-only `imageUrl` field is
omitted. -/
structure Card where
  name : String
  metadata : PokeMeta
  groupId : Int
  locked : Bool
deriving DecidableEq, Repr

instance : Inhabited Card :=
  ⟨{ name := "", metadata := default, groupId := -1, locked := false }⟩

/-- Result of a finished generation: the hidden `solutions` partition and the
shuffled `cardData`. -/
structure BoardResult where
  solutions : List (List String)
  cardData : List Card
deriving DecidableEq, Repr

/-- `while (groups.length < 4) { const g = await buildTypeGroup(pool,4) ||
sampleArray(pool,4); groups.push(g); removeFromPool(pool, g); }`
(script.js:100-104).  `groups.length` grows every iteration, so the source loop
runs at most four times; `fuel = 4` makes that bound explicit.  `c` indexes the
randomness-consuming call sites. -/
def fillGroups (api : String → Option PokeMeta) (r : Nat → Nat → Nat) (c : Nat) :
    Nat → List (List String) → List String → List (List String)
  | 0, groups, _ => groups
  | fuel + 1, groups, pool =>
    if 4 ≤ groups.length then groups
    else
      let g := match buildTypeGroup api (r c) pool 4 with
               | some g => g
               | none => sampleArray (r (c + 1)) pool 4
      fillGroups api r (c + 2) fuel (groups ++ [g]) (removeFromPool pool g)

/-- The group-assembly steps shared verbatim by the two implementations'
`startGame` (script.js:58-107; the Gen-1..7 variant differs only in its
legendary sample list, passed here as `legends`, and in shuffling its pool
first, done by its wrapper below).
Steps: type group; evolution group (filled by `findSameTypeFiller` when
partial); legendary group (padded from the pool's tail when it has 2 or 3
members); remaining groups by type or random sampling; lowercase
(`solutions = groups.map(g => g.map(n => n.toLowerCase()))`). -/
def assembleSolutions (api : String → Option PokeMeta) (r : Nat → Nat → Nat)
    (legends : List String) (pool0 : List String) : List (List String) :=
  let pool := pool0
  -- 1) type-based group
  let tg := buildTypeGroup api (r 0) pool 4
  let groups : List (List String) := match tg with | some g => [g] | none => []
  let pool := match tg with | some g => removeFromPool pool g | none => pool
  -- 2) evolution-family group, filled when below size 4
  let eg := buildEvolutionGroup api pool 4
  let (groups, pool) :=
    match eg with
    | none => (groups, pool)
    | some e =>
      if e.length < 4 then
        let (filler, pool') := findSameTypeFiller api (r 1) pool (e.headD "") (4 - e.length)
        (groups ++ [e ++ filler], removeFromPool pool' (e ++ filler))
      else
        (groups ++ [e.take 4], removeFromPool pool (e.take 4))
  -- 3) legendary group
  let legc := (legends.filter (fun n => pool.contains n)).take 4
  let (groups, pool) :=
    if 2 ≤ legc.length then
      let (lg, pool') := popPad 4 pool legc
      (groups ++ [lg], removeFromPool pool' lg)
    else (groups, pool)
  -- 4) fill remaining groups
  let groups := fillGroups api r 2 4 groups pool
  groups.map (fun g => g.map (fun n => jsToLowerCase n))

/-- Board construction after assembly (script.js:106-125): flatten the
solutions, shuffle the flat list, and build `cardData` from the shuffled
names. -/
def assembleBoard (api : String → Option PokeMeta) (r : Nat → Nat → Nat)
    (legends : List String) (pool0 : List String) : BoardResult :=
  let solutions := assembleSolutions api r legends pool0
  let flat := solutions.flatten
  let shuffled := shuffle (r 10) flat
  let cards := shuffled.map (fun name =>
    { name := name
      metadata := fetchPokemonData api name
      groupId := jsFindIndex (fun g => g.contains name) solutions
      locked := false })
  { solutions := solutions, cardData := cards }

/-- `startGame` of script.js (lines 49-133): the pool is the hard-coded Gen-1
list (`GEN1.slice()`, taken here as the `pool0` argument), with no size check. -/
def startGame (api : String → Option PokeMeta) (r : Nat → Nat → Nat)
    (pool0 : List String) : BoardResult :=
  assembleBoard api r legendaryNames pool0

/-- `MAX_BOARD = MAX_GROUPS * GROUP_SIZE = 16` of the Gen-1..7 implementation. -/
def MAX_BOARD : Nat := 16

/-- `startGame` of the Gen-1..7 implementation (its lines 65-144): throws
(`Not enough Pokémon in pool`) when the fetched pool holds fewer than
`MAX_BOARD` identifiers, otherwise shuffles a copy of the pool and assembles
the board; every later step absorbs its own failures. -/
def startGameGen (api : String → Option PokeMeta) (r : Nat → Nat → Nat)
    (pool : List String) : Except String BoardResult :=
  if pool.length < MAX_BOARD then Except.error "InsufficientPool"
  else Except.ok (assembleBoard api r candidateLegends (shuffle (r 11) pool))

/-- Player-visible game state: `cardData`, the mutable `solutions` partition,
and the current `selected` positions (script.js:37-39). -/
structure GameState where
  cards : List Card
  solutions : List (List String)
  selected : List Nat
deriving DecidableEq, Repr

/-- Outcome of `lockSelection` (script.js:194-229): the `Select exactly 4`
early return, the correct-group branch, or the incorrect-group branch. -/
inductive GuessResult
  | invalidSize
  | correct
  | incorrect
deriving DecidableEq, Repr

/-- Outcome of `onCardClick` (script.js:164-181): locked-card early return,
deselection of an already-selected card, the `up to 4` rejection, or a
successful selection. -/
inductive ToggleResult
  | lockedNoop
  | deselected
  | selectionFull
  | selectedOk
deriving DecidableEq, Repr

/-- `selected.forEach(i => cardData[i].locked = true)` (script.js:207). -/
def lockCards (cards : List Card) (sel : List Nat) : List Card :=
  sel.foldl (fun cs i => cs.set i { cs.getD i default with locked := true }) cards

/-- `solutions[gid] = []` (script.js:212); `gid` is a `findIndex` result, so a
negative index leaves every array slot unchanged. -/
def jsSetArr (l : List (List String)) (i : Int) (v : List String) : List (List String) :=
  if i < 0 then l else l.set i.toNat v

/-- `lockSelection()` (script.js:194-229).  Computes the distinct
`solutions.findIndex` values of the four selected names (`new Set(...)`,
modelled by `dedup`, which has the same size and — in the singleton case used
below — the same unique element); on a single distinct index it locks the
selected cards, empties that solution group and clears the selection; otherwise
the state is left untouched (the `wrong` CSS flash is presentation-only). -/
def lockSelection (s : GameState) : GameState × GuessResult :=
  if s.selected.length ≠ 4 then (s, GuessResult.invalidSize)
  else
    let names := s.selected.map (fun i => (s.cards.getD i default).name)
    let groupIds := (names.map (fun n => jsFindIndex (fun g => g.contains n) s.solutions)).dedup
    if groupIds.length = 1 then
      let gid := groupIds.headD 0
      ({ cards := lockCards s.cards s.selected,
         solutions := jsSetArr s.solutions gid [],
         selected := [] }, GuessResult.correct)
    else (s, GuessResult.incorrect)

/-- `onCardClick(idx, el)` (script.js:164-181): no-op on a locked card;
deselects an already-selected position; rejects a fifth selection; otherwise
appends the position. -/
def onCardClick (s : GameState) (idx : Nat) : GameState × ToggleResult :=
  let card := s.cards.getD idx default
  if card.locked then (s, ToggleResult.lockedNoop)
  else if s.selected.contains idx then
    ({ s with selected := s.selected.erase idx }, ToggleResult.deselected)
  else if 4 ≤ s.selected.length then (s, ToggleResult.selectionFull)
  else ({ s with selected := s.selected ++ [idx] }, ToggleResult.selectedOk)

/-- `clearSelection()` (script.js:238-246): empties the selection only. -/
def clearSelection (s : GameState) : GameState :=
  { s with selected := [] }

/-- `checkWin()` (script.js:248-253): the win condition fires exactly when the
locked-card count equals 16. -/
def checkWin (cards : List Card) : Bool :=
  (cards.filter (fun c => c.locked)).length == 16

/-- `const gen = metas[0].generation && metas[0].generation.name;` —
`generation` holds a *string*, so `.name` on it is `undefined`: the `&&` chain
short-circuits to `null`/`undefined` in both cases and never yields a value. -/
def genName (m : PokeMeta) : Option String :=
  m.generation.bind (fun _ => none)

/-- `inferHintForGroup(names)` (script.js:392-418): look the names up in
`cardData`, keep the found metadata, then test in order: all same primary type,
all same `gen` (dead, see `genName`), all legendary, all same evolution chain,
generic fallback. -/
def inferHintForGroup (cardData : List Card) (names : List String) : String :=
  let metas := names.filterMap
    (fun n => (cardData.find? (fun cd => cd.name == n)).map (fun c => c.metadata))
  if metas.isEmpty then "Unknown"
  else
    let m0 := metas.headD default
    let hintType :=
      match primaryType m0 with
      | some t =>
        if metas.all (fun m => primaryType m == some t) then
          some ("All are " ++ t ++ " type")
        else none
      | none => none
    match hintType with
    | some h => h
    | none =>
      let hintGen :=
        match genName m0 with
        | some g =>
          if metas.all (fun m => genName m == some g) then
            some ("All from " ++ g.replace "-" " ")
          else none
        | none => none
      match hintGen with
      | some h => h
      | none =>
        if metas.all (fun m => m.is_legendary) then "All Legendary"
        else
          match m0.evolution_chain with
          | some c =>
            if metas.all (fun m => m.evolution_chain == some c) then
              "Same evolution family"
            else "A shared connection"
          | none => "A shared connection"

/-- A step of player interaction within one session: a card click, a clear, a
lock attempt, or a reveal.  `revealAnswers` (script.js:256-283) reads
`cardData` and repaints borders/status only — it leaves the game state
untouched, so its step is the identity (its hint text is `inferHintForGroup`,
modelled above). -/
inductive Op
  | click (idx : Nat)
  | clear
  | lock
  | reveal
deriving DecidableEq, Repr

/-- Apply one interaction step to the state. -/
def applyOp (s : GameState) : Op → GameState
  | Op.click idx => (onCardClick s idx).1
  | Op.clear => clearSelection s
  | Op.lock => (lockSelection s).1
  | Op.reveal => s

/-- Apply a sequence of interaction steps. -/
def applyOps (s : GameState) (ops : List Op) : GameState :=
  ops.foldl applyOp s

/-! ## Concrete instances

Concrete oracles and states used to evaluate the embedded code on explicit
inputs (counterexamples to failing claims, witnesses for proved ones). -/

/-- A degenerate draw oracle: every `Math.random()` draw is the smallest one. -/
def rZero : Nat → Nat → Nat := fun _ _ => 0

/-- Metadata oracle exhibiting the evolution-filler overlap: `ea`, `eb`, `ec`
share primary type `t1` and evolution chain `c1`; the thirteen `f*` items have
no chain and spread over types `t2`..`t6`, each held by at most three items, so
no type bucket ever reaches four. -/
def apiDup : String → Option PokeMeta := fun n =>
  if n = "ea" ∨ n = "eb" ∨ n = "ec" then
    some { types := ["t1"], is_legendary := false, generation := none,
           evolution_chain := some "c1" }
  else if n = "fa" ∨ n = "fb" ∨ n = "fc" then
    some { types := ["t2"], is_legendary := false, generation := none, evolution_chain := none }
  else if n = "fd" ∨ n = "fe" ∨ n = "ff" then
    some { types := ["t3"], is_legendary := false, generation := none, evolution_chain := none }
  else if n = "fg" ∨ n = "fh" ∨ n = "fi" then
    some { types := ["t4"], is_legendary := false, generation := none, evolution_chain := none }
  else if n = "fj" ∨ n = "fk" ∨ n = "fl" then
    some { types := ["t5"], is_legendary := false, generation := none, evolution_chain := none }
  else if n = "fm" then
    some { types := ["t6"], is_legendary := false, generation := none, evolution_chain := none }
  else none

/-- Sixteen distinct pool identifiers for `apiDup`. -/
def poolDup : List String :=
  ["ea", "eb", "ec", "fa", "fb", "fc", "fd", "fe", "ff", "fg", "fh", "fi",
   "fj", "fk", "fl", "fm"]

/-- Metadata oracle in which every item has its own primary type and no
evolution chain: every rule-based strategy fails and all four groups come from
random sampling. -/
def apiSpread : String → Option PokeMeta := fun n =>
  if n ∈ ["ga", "gb", "gc", "gd", "ge", "gf", "gg", "gh", "gi", "gj", "gk",
          "gl", "gm", "gn", "go", "gp"] then
    some { types := ["u" ++ n], is_legendary := false, generation := none,
           evolution_chain := none }
  else none

/-- Sixteen distinct pool identifiers for `apiSpread`. -/
def poolSpread : List String :=
  ["ga", "gb", "gc", "gd", "ge", "gf", "gg", "gh", "gi", "gj", "gk", "gl",
   "gm", "gn", "go", "gp"]

/-- An always-failing metadata oracle. -/
def apiNone : String → Option PokeMeta := fun _ => none

/-- Four board entries whose metadata all carry `generation = "generation-i"`
but mixed primary types, no legendary flag and no shared chain. -/
def eraCards : List Card :=
  [{ name := "n1",
     metadata := { types := ["fire"], is_legendary := false,
                   generation := some "generation-i", evolution_chain := none },
     groupId := 0, locked := false },
   { name := "n2",
     metadata := { types := ["water"], is_legendary := false,
                   generation := some "generation-i", evolution_chain := none },
     groupId := 0, locked := false },
   { name := "n3",
     metadata := { types := ["fire"], is_legendary := false,
                   generation := some "generation-i", evolution_chain := none },
     groupId := 0, locked := false },
   { name := "n4",
     metadata := { types := ["grass"], is_legendary := false,
                   generation := some "generation-i", evolution_chain := none },
     groupId := 0, locked := false }]

/-- A four-card board with one solution group, all four selected. -/
def stateQuad : GameState :=
  { cards :=
      [{ name := "a", metadata := default, groupId := 0, locked := false },
       { name := "b", metadata := default, groupId := 0, locked := false },
       { name := "c", metadata := default, groupId := 0, locked := false },
       { name := "d", metadata := default, groupId := 0, locked := false }],
    solutions := [["a", "b", "c", "d"]],
    selected := [0, 1, 2, 3] }

/-- A four-card board about to claim its single group. -/
def stateClaim : GameState :=
  { cards :=
      [{ name := "w", metadata := default, groupId := 0, locked := false },
       { name := "x", metadata := default, groupId := 0, locked := false },
       { name := "y", metadata := default, groupId := 0, locked := false },
       { name := "z", metadata := default, groupId := 0, locked := false }],
    solutions := [["w", "x", "y", "z"]],
    selected := [0, 1, 2, 3] }

/-- A five-card board with four cards already selected. -/
def stateFive : GameState :=
  { cards :=
      [{ name := "p", metadata := default, groupId := 0, locked := false },
       { name := "q", metadata := default, groupId := 0, locked := false },
       { name := "s", metadata := default, groupId := 0, locked := false },
       { name := "t", metadata := default, groupId := 1, locked := false },
       { name := "u", metadata := default, groupId := 1, locked := false }],
    solutions := [["p", "q", "s"], ["t", "u"]],
    selected := [0, 1, 2, 3] }

/-- A two-card board whose first card is already locked. -/
def stateRun : GameState :=
  { cards :=
      [{ name := "k1", metadata := default, groupId := 0, locked := true },
       { name := "k2", metadata := default, groupId := 1, locked := false }],
    solutions := [[], ["k2"]],
    selected := [] }

/-- An interaction run mixing clicks, clears, lock attempts and reveals. -/
def opsRun : List Op :=
  [Op.click 1, Op.reveal, Op.click 1, Op.clear, Op.click 0, Op.lock, Op.reveal]

/-- Sixteen locked cards. -/
def cardsWon : List Card :=
  List.replicate 16 { name := "v", metadata := default, groupId := 0, locked := true }

/-! ## Helper lemmas -/

open List in
/-- Moving a retrieved element to the front while writing `x` into its slot is a
permutation-preserving exchange. -/
theorem cons_set_perm {α : Type _} :
    ∀ (t : List α) (j : Nat) (x y : α), t[j]? = some y →
      (y :: t.set j x).Perm (x :: t)
  | [], j, x, y, h => by simp at h
  | z :: t', 0, x, y, h => by
      simp only [List.getElem?_cons_zero, Option.some.injEq] at h
      cases h
      simpa using List.Perm.swap x z t'
  | z :: t', j + 1, x, y, h => by
      simp only [List.getElem?_cons_succ] at h
      have ih := cons_set_perm t' j x y h
      have h1 : (y :: z :: t'.set j x).Perm (z :: y :: t'.set j x) :=
        List.Perm.swap z y _
      have h2 : (z :: y :: t'.set j x).Perm (z :: x :: t') :=
        (List.perm_cons z).mpr ih
      have h3 : (z :: x :: t').Perm (x :: z :: t') := List.Perm.swap x z t'
      simpa using h1.trans (h2.trans h3)

/-- Exchanging two retrieved elements by a double `set` permutes the list. -/
theorem set_set_perm {α : Type _} :
    ∀ (a : List α) (i j : Nat) (x y : α), a[i]? = some x → a[j]? = some y →
      ((a.set i y).set j x).Perm a
  | [], i, j, x, y, hx, _ => by simp at hx
  | h :: t, 0, 0, x, y, hx, hy => by
      simp only [List.getElem?_cons_zero, Option.some.injEq] at hx hy
      cases hx; cases hy
      simp
  | h :: t, 0, j + 1, x, y, hx, hy => by
      simp only [List.getElem?_cons_zero, Option.some.injEq,
        List.getElem?_cons_succ] at hx hy
      cases hx
      simpa using cons_set_perm t j h y hy
  | h :: t, i + 1, 0, x, y, hx, hy => by
      simp only [List.getElem?_cons_zero, Option.some.injEq,
        List.getElem?_cons_succ] at hx hy
      cases hy
      simpa using cons_set_perm t i h x hx
  | h :: t, i + 1, j + 1, x, y, hx, hy => by
      simp only [List.getElem?_cons_succ] at hx hy
      simpa using set_set_perm t i j x y hx hy

/-- `swapL` permutes its argument. -/
theorem swapL_perm {α : Type _} (a : List α) (i j : Nat) : (swapL a i j).Perm a := by
  unfold swapL
  cases hx : a[i]? with
  | none => exact List.Perm.refl a
  | some x =>
    cases hy : a[j]? with
    | none => exact List.Perm.refl a
    | some y => exact set_set_perm a i j x y hx hy

/-- The Fisher–Yates loop permutes its argument. -/
theorem fisherYates_perm {α : Type _} (ri : Nat → Nat) :
    ∀ (n k : Nat) (a : List α), (fisherYates ri k a n).Perm a
  | 0, _, a => List.Perm.refl a
  | n + 1, k, a =>
    (fisherYates_perm ri n (k + 1) _).trans (swapL_perm a (n + 1) (ri k % (n + 2)))

/-- `shuffle` permutes its argument: no element is dropped or duplicated. -/
theorem shuffle_perm {α : Type _} (ri : Nat → Nat) (a : List α) :
    (shuffle ri a).Perm a :=
  fisherYates_perm ri (a.length - 1) 0 a

/-- `getD` after `set` at the written position. -/
theorem getD_set_self {α : Type _} [Inhabited α] (l : List α) (i : Nat) (x : α)
    (h : i < l.length) : (l.set i x).getD i default = x := by
  simp [List.getD_eq_getElem?_getD, List.getElem?_set, h]

/-- `getD` after `set` at another position. -/
theorem getD_set_ne {α : Type _} [Inhabited α] (l : List α) {i j : Nat} (x : α)
    (h : i ≠ j) : (l.set i x).getD j default = l.getD j default := by
  simp [List.getD_eq_getElem?_getD, List.getElem?_set, h]

/-- Unfolding equation of `lockCards` on a cons. -/
theorem lockCards_cons (cards : List Card) (j : Nat) (rest : List Nat) :
    lockCards cards (j :: rest) =
      lockCards (cards.set j { cards.getD j default with locked := true }) rest :=
  rfl

/-- `lockCards` never changes the number of cards. -/
theorem lockCards_length :
    ∀ (sel : List Nat) (cards : List Card), (lockCards cards sel).length = cards.length
  | [], _ => rfl
  | j :: rest, cards => by
    rw [lockCards_cons, lockCards_length rest, List.length_set]

/-- Setting a locked card anywhere preserves "the card at `i` is locked". -/
theorem locked_getD_set (cards : List Card) (j i : Nat) (c' : Card)
    (hc' : c'.locked = true) (h : (cards.getD i default).locked = true) :
    ((cards.set j c').getD i default).locked = true := by
  by_cases hij : j = i
  · subst hij
    by_cases hlt : j < cards.length
    · rw [getD_set_self _ _ _ hlt]; exact hc'
    · have hnone : cards[j]? = none := List.getElem?_eq_none (Nat.le_of_not_lt hlt)
      rw [List.getD_eq_getElem?_getD, hnone] at h
      simp [default] at h
  · rw [getD_set_ne _ _ hij]; exact h

/-- `lockCards` preserves "the card at `i` is locked". -/
theorem lockCards_mono :
    ∀ (sel : List Nat) (cards : List Card) (i : Nat),
      (cards.getD i default).locked = true →
      ((lockCards cards sel).getD i default).locked = true
  | [], _, _, h => h
  | j :: rest, cards, i, h => by
    rw [lockCards_cons]
    exact lockCards_mono rest _ i (locked_getD_set cards j i _ rfl h)

/-- Every in-range position in `sel` ends up locked after `lockCards`. -/
theorem lockCards_mem :
    ∀ (sel : List Nat) (cards : List Card) (i : Nat), i ∈ sel → i < cards.length →
      ((lockCards cards sel).getD i default).locked = true
  | [], _, _, hmem, _ => by simp at hmem
  | j :: rest, cards, i, hmem, hlt => by
    rw [lockCards_cons]
    rcases List.mem_cons.mp hmem with hij | hmem'
    · subst hij
      refine lockCards_mono rest _ i ?_
      rw [getD_set_self _ _ _ hlt]
    · exact lockCards_mem rest _ i hmem' (by rw [List.length_set]; exact hlt)

/-- A nonempty duplicate-free list all of whose elements are `v` is `[v]`. -/
theorem nodup_all_eq_singleton {α : Type _} {S : List α} {v : α}
    (hnd : S.Nodup) (hne : S ≠ []) (hall : ∀ x ∈ S, x = v) : S = [v] := by
  cases S with
  | nil => exact absurd rfl hne
  | cons a rest =>
    have ha : a = v := hall a (List.mem_cons_self a rest)
    subst ha
    cases rest with
    | nil => rfl
    | cons b rb =>
      have hb : b = a := (hall b (by simp)).trans rfl
      exact absurd (hb ▸ List.mem_cons_self b rb) (List.Nodup.not_mem hnd)

/-- A nonempty list has exactly one distinct value iff all its elements agree. -/
theorem dedup_length_one_iff {α : Type _} [DecidableEq α] {l : List α}
    (hne : l ≠ []) : l.dedup.length = 1 ↔ ∃ v, ∀ x ∈ l, x = v := by
  constructor
  · intro h
    obtain ⟨v, hv⟩ := List.length_eq_one.mp h
    refine ⟨v, fun x hx => ?_⟩
    have hxd : x ∈ l.dedup := List.mem_dedup.mpr hx
    rw [hv] at hxd
    simpa using hxd
  · rintro ⟨v, hv⟩
    have hvl : v ∈ l := by
      cases l with
      | nil => exact absurd rfl hne
      | cons a rest => exact hv a (List.mem_cons_self a rest) ▸ List.mem_cons_self a rest
    have hd : l.dedup = [v] :=
      nodup_all_eq_singleton (List.nodup_dedup l)
        (List.ne_nil_of_mem (List.mem_dedup.mpr hvl))
        (fun x hx => hv x (List.mem_dedup.mp hx))
    rw [hd]
    rfl

/-! ## Claim theorems -/

/-- C1: the claim says every generated board's four groups are pairwise
disjoint with a union of exactly 16 distinct identifiers whenever the pool
starts with at least 16 distinct identifiers.  The code violates this:
`findSameTypeFiller` scans a pool from which the partial evolution group was
*not* yet removed, so the filler can return a member of that very group.  On
the 16-identifier duplicate-free pool `poolDup` the generated board has 16
entries but only 15 distinct identifiers — `ea` appears twice and `fa` is
omitted. -/
theorem startGame_filler_overlap_breaks_distinctness :
    poolDup.Nodup ∧ poolDup.length = 16 ∧
    (startGame apiDup rZero poolDup).solutions.length = 4 ∧
    (∀ g ∈ (startGame apiDup rZero poolDup).solutions, g.length = 4) ∧
    (startGame apiDup rZero poolDup).solutions.flatten.length = 16 ∧
    (startGame apiDup rZero poolDup).solutions.flatten.dedup.length = 15 ∧
    "fa" ∈ poolDup ∧
    "fa" ∉ (startGame apiDup rZero poolDup).solutions.flatten := by decide

/-- C4: the claim says a partial evolution group concatenated with the
filler's result has *membership* of exactly the target size 4.  The code
violates this: on `poolDup` the evolution strategy returns the partial chain
`[ea, eb, ec]`, and the filler — scanning a pool that still contains the
chain — returns `[ea]`; the concatenation has 4 entries but only 3 distinct
members. -/
theorem evolution_filler_group_membership_undersized :
    buildEvolutionGroup apiDup poolDup 4 = some ["ea", "eb", "ec"] ∧
    (findSameTypeFiller apiDup (rZero 1) poolDup "ea" 1).1 = ["ea"] ∧
    (["ea", "eb", "ec"] ++ (findSameTypeFiller apiDup (rZero 1) poolDup "ea" 1).1).length = 4 ∧
    (["ea", "eb", "ec"] ++
      (findSameTypeFiller apiDup (rZero 1) poolDup "ea" 1).1).dedup.length = 3 := by decide

/-- C9: the claim says the reveal description tests, in order, all-same
primary category, else all-same era, else all-same rarity, else all-same
lineage, else a generic fallback.  The era test is dead code: `gen` is
computed as `metas[0].generation && metas[0].generation.name`, but
`generation` holds a string, so `.name` is `undefined` and the test never
succeeds.  `eraCards` all share generation `"generation-i"` (and no other
trait), yet the inferred hint is the generic fallback, not the era
description. -/
theorem reveal_era_rule_never_inferred :
    (∀ m : PokeMeta, genName m = none) ∧
    eraCards.all (fun c => c.metadata.generation == some "generation-i") = true ∧
    inferHintForGroup eraCards ["n1", "n2", "n3", "n4"] = "A shared connection" := by
  refine ⟨fun m => ?_, by decide, by decide⟩
  cases h : m.generation <;> simp [genName, h]

/-- C5: `checkWin` fires exactly when all 16 entries are locked, and a
15-of-16 lock count never triggers it. -/
theorem checkWin_iff_sixteen_locked (cards : List Card) (h : cards.length = 16) :
    (checkWin cards = true ↔ ∀ c ∈ cards, c.locked = true) ∧
    ((cards.filter (fun c => c.locked)).length = 15 → checkWin cards = false) := by
  constructor
  · rw [checkWin, beq_iff_eq, ← h]
    exact List.filter_length_eq_length
  · intro h15
    rw [checkWin, h15]
    decide

/-- Witness for `checkWin_iff_sixteen_locked` on a fully locked board. -/
theorem checkWin_iff_sixteen_locked_witness :
    (checkWin cardsWon = true ↔ ∀ c ∈ cardsWon, c.locked = true) ∧
    ((cardsWon.filter (fun c => c.locked)).length = 15 → checkWin cardsWon = false) :=
  checkWin_iff_sixteen_locked cardsWon (by decide)

/-- The hidden partition produced by `startGame` is the assembled solutions. -/
theorem startGame_solutions (api : String → Option PokeMeta) (r : Nat → Nat → Nat)
    (pool : List String) :
    (startGame api r pool).solutions = assembleSolutions api r legendaryNames pool :=
  rfl

/-- The board entries produced by `startGame` are built from the shuffled flat
solution list. -/
theorem startGame_cardData (api : String → Option PokeMeta) (r : Nat → Nat → Nat)
    (pool : List String) :
    (startGame api r pool).cardData =
      (shuffle (r 10) ((assembleSolutions api r legendaryNames pool).flatten)).map
        (fun name =>
          { name := name, metadata := fetchPokemonData api name,
            groupId := jsFindIndex (fun g => g.contains name)
              (assembleSolutions api r legendaryNames pool),
            locked := false }) := by
  simp only [startGame, assembleBoard]

/-- C6: the shuffle applied between assembly and board positions is a
permutation of the assembled identifiers — every assembled identifier appears
at exactly one board position when the assembly is duplicate-free, and none is
dropped or duplicated by shuffling. -/
theorem board_shuffle_is_permutation (api : String → Option PokeMeta)
    (r : Nat → Nat → Nat) (pool : List String)
    (hnd : (startGame api r pool).solutions.flatten.Nodup) :
    ((startGame api r pool).cardData.map (fun c => c.name)).Perm
      ((startGame api r pool).solutions.flatten) ∧
    ∀ x ∈ (startGame api r pool).solutions.flatten,
      List.count x ((startGame api r pool).cardData.map (fun c => c.name)) = 1 := by
  have hmap : (startGame api r pool).cardData.map (fun c => c.name) =
      shuffle (r 10) ((startGame api r pool).solutions.flatten) := by
    rw [startGame_solutions, startGame_cardData, List.map_map]
    simp [Function.comp_def]
  constructor
  · rw [hmap]
    exact shuffle_perm _ _
  · intro x hx
    rw [hmap, (shuffle_perm (r 10) _).count_eq]
    exact List.count_eq_one_of_mem hnd hx

/-- Witness for `board_shuffle_is_permutation` on a 16-identifier pool whose
assembled board is duplicate-free. -/
theorem board_shuffle_is_permutation_witness :
    ((startGame apiSpread rZero poolSpread).cardData.map (fun c => c.name)).Perm
      ((startGame apiSpread rZero poolSpread).solutions.flatten) ∧
    ∀ x ∈ (startGame apiSpread rZero poolSpread).solutions.flatten,
      List.count x
        ((startGame apiSpread rZero poolSpread).cardData.map (fun c => c.name)) = 1 :=
  board_shuffle_is_permutation apiSpread rZero poolSpread (by decide)

/-- C7: with four positions already selected, clicking a fifth, unlocked,
not-yet-selected position is rejected with the selection-full outcome and the
state (hence the previous four selections) is unchanged; clicking a locked
entry is a no-op in every state. -/
theorem fifth_selection_rejected_selection_unchanged (s : GameState) (idx : Nat)
    (h4 : s.selected.length = 4) (hnot : idx ∉ s.selected)
    (hunlocked : (s.cards.getD idx default).locked = false) :
    onCardClick s idx = (s, ToggleResult.selectionFull) ∧
    (onCardClick s idx).1.selected = s.selected ∧
    (∀ (t : GameState) (j : Nat), (t.cards.getD j default).locked = true →
      onCardClick t j = (t, ToggleResult.lockedNoop)) := by
  have hunlocked' : (s.cards[idx]?.getD default).locked = false := by
    simpa [List.getD_eq_getElem?_getD] using hunlocked
  refine ⟨?_, ?_, ?_⟩
  · simp [onCardClick, hunlocked', hnot, h4]
  · simp [onCardClick, hunlocked', hnot, h4]
  · intro t j hj
    have hj' : (t.cards[j]?.getD default).locked = true := by
      simpa [List.getD_eq_getElem?_getD] using hj
    simp [onCardClick, hj']

/-- Witness for `fifth_selection_rejected_selection_unchanged`. -/
theorem fifth_selection_rejected_selection_unchanged_witness :
    onCardClick stateFive 4 = (stateFive, ToggleResult.selectionFull) ∧
    (onCardClick stateFive 4).1.selected = stateFive.selected ∧
    (∀ (t : GameState) (j : Nat), (t.cards.getD j default).locked = true →
      onCardClick t j = (t, ToggleResult.lockedNoop)) :=
  fifth_selection_rejected_selection_unchanged stateFive 4 (by decide) (by decide)
    (by decide)

/-- Any single interaction step preserves a set lock flag. -/
theorem applyOp_locked_mono (s : GameState) (op : Op) (i : Nat)
    (h : (s.cards.getD i default).locked = true) :
    ((applyOp s op).cards.getD i default).locked = true := by
  cases op with
  | click idx =>
    have hc : (onCardClick s idx).1.cards = s.cards := by
      simp only [onCardClick]
      split
      · rfl
      · split
        · rfl
        · split <;> rfl
    show ((onCardClick s idx).1.cards.getD i default).locked = true
    rw [hc]
    exact h
  | clear => exact h
  | lock =>
    show ((lockSelection s).1.cards.getD i default).locked = true
    simp only [lockSelection]
    split
    · exact h
    · split
      · exact lockCards_mono _ _ _ h
      · exact h
  | reveal => exact h

/-- C10: within a session, lock flags only ever go from unlocked to locked —
no sequence of clicks, clears, lock attempts and reveals can revert a locked
entry. -/
theorem lock_flags_monotone (ops : List Op) (s : GameState) (i : Nat)
    (h : (s.cards.getD i default).locked = true) :
    ((applyOps s ops).cards.getD i default).locked = true := by
  induction ops generalizing s with
  | nil => exact h
  | cons op rest ih => exact ih _ (applyOp_locked_mono s op i h)

/-- Witness for `lock_flags_monotone` over a mixed interaction run. -/
theorem lock_flags_monotone_witness :
    ((applyOps stateRun opsRun).cards.getD 0 default).locked = true :=
  lock_flags_monotone opsRun stateRun 0 (by decide)
/-- C2: a submitted guess of exactly four unlocked identifiers is judged
Correct iff all four originate from a single hidden group; on Correct all four
entries become locked; on Incorrect the state (cards, partition, selection) is
untouched, so the same items remain resubmittable. -/
theorem lockSelection_correct_iff_single_group (s : GameState)
    (h4 : s.selected.length = 4)
    (hlt : ∀ i ∈ s.selected, i < s.cards.length)
    (hunlocked : ∀ i ∈ s.selected, (s.cards.getD i default).locked = false)
    (horig : ∀ i ∈ s.selected,
      jsFindIndex (fun g => g.contains (s.cards.getD i default).name) s.solutions
        = (s.cards.getD i default).groupId) :
    ((lockSelection s).2 = GuessResult.correct ↔
      ∃ g : Int, ∀ i ∈ s.selected, (s.cards.getD i default).groupId = g) ∧
    ((lockSelection s).2 = GuessResult.correct →
      ∀ i ∈ s.selected, ((lockSelection s).1.cards.getD i default).locked = true) ∧
    ((lockSelection s).2 = GuessResult.incorrect → (lockSelection s).1 = s) := by
  have hmapne : s.selected.map (fun i => (s.cards.getD i default).groupId) ≠ [] := by
    intro h0
    rw [List.map_eq_nil_iff] at h0
    rw [h0] at h4
    simp at h4
  have hmaps :
      (s.selected.map (fun i => (s.cards.getD i default).name)).map
        (fun n => jsFindIndex (fun g => g.contains n) s.solutions)
      = s.selected.map (fun i => (s.cards.getD i default).groupId) := by
    rw [List.map_map]
    exact List.map_congr_left horig
  have hiff :
      (s.selected.map (fun i => (s.cards.getD i default).groupId)).dedup.length = 1
        ↔ ∃ g : Int, ∀ i ∈ s.selected, (s.cards.getD i default).groupId = g := by
    rw [dedup_length_one_iff hmapne]
    constructor
    · rintro ⟨v, hv⟩
      exact ⟨v, fun i hi => hv _ (List.mem_map_of_mem _ hi)⟩
    · rintro ⟨v, hv⟩
      refine ⟨v, fun x hx => ?_⟩
      obtain ⟨i, hi, rfl⟩ := List.mem_map.mp hx
      exact hv i hi
  have hcond : ¬ s.selected.length ≠ 4 := by rw [h4]; simp
  by_cases hone :
      (s.selected.map (fun i => (s.cards.getD i default).groupId)).dedup.length = 1
  · refine ⟨?_, ?_, ?_⟩
    · simp only [lockSelection, if_neg hcond, hmaps, if_pos hone]
      simpa using hiff.mp hone
    · intro _ i hi
      simp only [lockSelection, if_neg hcond, hmaps, if_pos hone]
      exact lockCards_mem s.selected s.cards i hi (hlt i hi)
    · intro hinc
      simp only [lockSelection, if_neg hcond, hmaps, if_pos hone] at hinc
      first
        | exact hinc.elim
        | exact absurd hinc (by decide)
  · refine ⟨?_, ?_, ?_⟩
    · simp only [lockSelection, if_neg hcond, hmaps, if_neg hone]
      simpa using fun hex => hone (hiff.mpr hex)
    · intro hc
      simp only [lockSelection, if_neg hcond, hmaps, if_neg hone] at hc
      first
        | exact hc.elim
        | exact absurd hc (by decide)
    · intro _
      simp only [lockSelection, if_neg hcond, hmaps, if_neg hone]
      try rfl

/-- Witness for `lockSelection_correct_iff_single_group` on a four-card board
whose four selected entries form the single hidden group. -/
theorem lockSelection_correct_iff_single_group_witness :
    (((lockSelection stateQuad).2 = GuessResult.correct ↔
      ∃ g : Int, ∀ i ∈ stateQuad.selected, (stateQuad.cards.getD i default).groupId = g) ∧
    ((lockSelection stateQuad).2 = GuessResult.correct →
      ∀ i ∈ stateQuad.selected,
        ((lockSelection stateQuad).1.cards.getD i default).locked = true) ∧
    ((lockSelection stateQuad).2 = GuessResult.incorrect →
      (lockSelection stateQuad).1 = stateQuad)) :=
  lockSelection_correct_iff_single_group stateQuad (by decide) (by decide) (by decide)
    (by decide)
/-- C3: once a correct four-identifier set is claimed, its entries are locked
and the selection is cleared; a locked entry's click is a no-op, so the same
four identifiers can never be re-selected, and any submission without exactly
four selected positions is rejected as an invalid selection size — not judged
as an incorrect group. -/
theorem correct_claim_blocks_resubmission (s : GameState)
    (hcorrect : (lockSelection s).2 = GuessResult.correct)
    (hlt : ∀ i ∈ s.selected, i < s.cards.length) :
    (∀ i ∈ s.selected, ((lockSelection s).1.cards.getD i default).locked = true) ∧
    (lockSelection s).1.selected = [] ∧
    (∀ (t : GameState) (idx : Nat), (t.cards.getD idx default).locked = true →
      onCardClick t idx = (t, ToggleResult.lockedNoop)) ∧
    (∀ t : GameState, t.selected.length ≠ 4 →
      lockSelection t = (t, GuessResult.invalidSize)) := by
  have h4 : s.selected.length = 4 := by
    by_contra h4
    have hval : (lockSelection s).2 = GuessResult.invalidSize := by
      simp only [lockSelection, if_pos h4]
    rw [hval] at hcorrect
    exact absurd hcorrect (by decide)
  have hcond : ¬ s.selected.length ≠ 4 := by rw [h4]; simp
  have hone :
      ((s.selected.map (fun i => (s.cards.getD i default).name)).map
        (fun n => jsFindIndex (fun g => g.contains n) s.solutions)).dedup.length = 1 := by
    by_contra hone
    have hinc : (lockSelection s).2 = GuessResult.incorrect := by
      simp only [lockSelection, if_neg hcond, if_neg hone]
    rw [hinc] at hcorrect
    exact absurd hcorrect (by decide)
  refine ⟨?_, ?_, ?_, ?_⟩
  · intro i hi
    simp only [lockSelection, if_neg hcond, if_pos hone]
    exact lockCards_mem s.selected s.cards i hi (hlt i hi)
  · simp only [lockSelection, if_neg hcond, if_pos hone]
  · intro t idx hlock
    have hlock' : (t.cards[idx]?.getD default).locked = true := by
      simpa [List.getD_eq_getElem?_getD] using hlock
    simp [onCardClick, hlock']
  · intro t hne
    simp only [lockSelection, if_pos hne]

/-- Witness for `correct_claim_blocks_resubmission` on a four-card board whose
selection is its single hidden group. -/
theorem correct_claim_blocks_resubmission_witness :
    ((∀ i ∈ stateClaim.selected,
      ((lockSelection stateClaim).1.cards.getD i default).locked = true) ∧
    (lockSelection stateClaim).1.selected = [] ∧
    (∀ (t : GameState) (idx : Nat), (t.cards.getD idx default).locked = true →
      onCardClick t idx = (t, ToggleResult.lockedNoop)) ∧
    (∀ t : GameState, t.selected.length ≠ 4 →
      lockSelection t = (t, GuessResult.invalidSize))) :=
  correct_claim_blocks_resubmission stateClaim (by decide) (by decide)
/-- An item whose metadata lookup failed (no primary type) never enters a type
bucket, hence never appears in a group returned by the type-group scan. -/
theorem buildTypeGroupLoop_not_mem (api : String → Option PokeMeta) (nm : String)
    (hnone : primaryType (fetchPokemonData api nm) = none) (size : Nat) :
    ∀ (sample : List String) (buckets : List (String × List String))
      (g : List String),
      (∀ b ∈ buckets, nm ∉ b.2) →
      buildTypeGroupLoop api size sample buckets = some g → nm ∉ g
  | [], buckets, g, _, heq => by simp [buildTypeGroupLoop] at heq
  | n :: rest, buckets, g, hinv, heq => by
    rw [buildTypeGroupLoop] at heq
    cases hpt : primaryType (fetchPokemonData api n) with
    | none =>
      rw [hpt] at heq
      exact buildTypeGroupLoop_not_mem api nm hnone size rest buckets g hinv heq
    | some pt =>
      rw [hpt] at heq
      simp only [] at heq
      have hmem : nm ∉ bucketGet buckets pt ++ [n] := by
        intro hm
        rcases List.mem_append.mp hm with hm1 | hm2
        · cases hfind : buckets.find? (fun b => b.1 == pt) with
          | none => simp only [bucketGet, hfind] at hm1; simp at hm1
          | some b =>
            simp only [bucketGet, hfind] at hm1
            exact hinv b (List.mem_of_find?_eq_some hfind) hm1
        · have hnn : nm = n := by simpa using hm2
          rw [← hnn] at hpt
          rw [hnone] at hpt
          cases hpt
      split at heq
      · have hg : g = (bucketGet buckets pt ++ [n]).take size := by
          have := heq
          injection this with h0
          exact h0.symm
        rw [hg]
        intro hmm
        exact hmem (List.mem_of_mem_take hmm)
      · refine buildTypeGroupLoop_not_mem api nm hnone size rest _ g ?_ heq
        intro b hb
        simp only [bucketSet] at hb
        split at hb
        · rcases List.mem_map.mp hb with ⟨b0, hb0, hbeq⟩
          by_cases hk : (b0.1 == pt) = true
          · rw [if_pos hk] at hbeq
            rw [← hbeq]
            exact hmem
          · rw [if_neg hk] at hbeq
            rw [← hbeq]
            exact hinv b0 hb0
        · rcases List.mem_append.mp hb with hb1 | hb2
          · exact hinv b hb1
          · have : b = (pt, bucketGet buckets pt ++ [n]) := by simpa using hb2
            rw [this]
            exact hmem
/-- C8: per-item metadata failures are absorbed — a failed item yields the
attribute-less record (empty type list, rarity false) and never appears in a
rule group — while generation fails to the user exactly when the candidate
pool holds fewer than the 16 identifiers the board needs. -/
theorem failure_absorbed_only_pool_size_fatal (api : String → Option PokeMeta)
    (r : Nat → Nat → Nat) (pool : List String) (nm : String)
    (hfail : api nm = none) :
    ((∃ e, startGameGen api r pool = Except.error e) ↔ pool.length < 16) ∧
    fetchPokemonData api nm =
      { types := [], is_legendary := false, generation := none,
        evolution_chain := none } ∧
    (∀ (size : Nat) (sample : List String) (g : List String),
      buildTypeGroupLoop api size sample [] = some g → nm ∉ g) := by
  have hfetch : fetchPokemonData api nm =
      { types := [], is_legendary := false, generation := none,
        evolution_chain := none } := by
    simp [fetchPokemonData, hfail]
  refine ⟨?_, hfetch, ?_⟩
  · by_cases h : pool.length < 16
    · simp [startGameGen, MAX_BOARD, h]
    · simp [startGameGen, MAX_BOARD, h]
  · intro size sample g heq
    refine buildTypeGroupLoop_not_mem api nm ?_ size sample [] g (by simp) heq
    rw [hfetch]
    rfl

/-- Witness for `failure_absorbed_only_pool_size_fatal`: an always-failing
oracle over a 16-identifier pool. -/
theorem failure_absorbed_only_pool_size_fatal_witness :
    (((∃ e, startGameGen apiNone rZero poolSpread = Except.error e) ↔
      poolSpread.length < 16) ∧
    fetchPokemonData apiNone "zz" =
      { types := [], is_legendary := false, generation := none,
        evolution_chain := none } ∧
    (∀ (size : Nat) (sample : List String) (g : List String),
      buildTypeGroupLoop apiNone size sample [] = some g → "zz" ∉ g)) :=
  failure_absorbed_only_pool_size_fatal apiNone rZero poolSpread "zz" rfl
